import Mathlib

/-!
Verification development for the flipper-api repository.

The analytics core (`core/recommender.py`) is a set of pure transformations
over pandas DataFrames whose scalar values are IEEE floats.  We shallowly
embed those tables as Lean lists of records whose numeric cells live in `PF`,
a model of Python floats over exact rationals with the three special values
`inf`, `-inf` and `nan` (comparisons against `nan` are false, arithmetic with
`nan` propagates it), which is exact for every value the claims exercise.
Fallible Python code (exceptions) is embedded with an explicit `PyResult`
type, and the stateful caches of `core/cache_manager.py` as explicit
state-passing functions over association lists.
-/

attribute [local semireducible] Rat.add Rat.mul Rat.sub Rat.inv Rat.ofScientific

/-- Model of a Python float: an exact rational, positive/negative infinity,
or `nan`.  All float values reachable in the analytics code are of this
shape (the repository never produces subnormal/rounding-sensitive values on
the paths the claims talk about, and all constants involved are decimal
fractions represented exactly here). -/
inductive PF where
  | num : ℚ → PF
  | inf : PF
  | ninf : PF
  | nan : PF
deriving DecidableEq, Repr

/-- IEEE negation. -/
def PF.neg : PF → PF
  | .num a => .num (-a)
  | .inf => .ninf
  | .ninf => .inf
  | .nan => .nan

/-- IEEE addition (`inf + -inf = nan`, `nan` propagates). -/
def PF.add : PF → PF → PF
  | .nan, _ => .nan
  | _, .nan => .nan
  | .num a, .num b => .num (a + b)
  | .num _, .inf => .inf
  | .inf, .num _ => .inf
  | .inf, .inf => .inf
  | .num _, .ninf => .ninf
  | .ninf, .num _ => .ninf
  | .ninf, .ninf => .ninf
  | .inf, .ninf => .nan
  | .ninf, .inf => .nan

/-- IEEE subtraction. -/
def PF.sub (a b : PF) : PF := PF.add a (PF.neg b)

/-- IEEE multiplication (`0 * inf = nan`, `nan` propagates). -/
def PF.mul : PF → PF → PF
  | .nan, _ => .nan
  | _, .nan => .nan
  | .num a, .num b => .num (a * b)
  | .num a, .inf => if 0 < a then .inf else if a < 0 then .ninf else .nan
  | .inf, .num b => if 0 < b then .inf else if b < 0 then .ninf else .nan
  | .num a, .ninf => if 0 < a then .ninf else if a < 0 then .inf else .nan
  | .ninf, .num b => if 0 < b then .ninf else if b < 0 then .inf else .nan
  | .inf, .inf => .inf
  | .inf, .ninf => .ninf
  | .ninf, .inf => .ninf
  | .ninf, .ninf => .inf

/-- Division as used by the analytics code.  Every division the code performs
is guarded so that the divisor is never a finite zero (Python would raise
`ZeroDivisionError` there); we map that unreachable case to `nan`. -/
def PF.div : PF → PF → PF
  | .nan, _ => .nan
  | _, .nan => .nan
  | .num a, .num b => if b = 0 then .nan else .num (a / b)
  | .num _, .inf => .num 0
  | .num _, .ninf => .num 0
  | .inf, .num b => if b < 0 then .ninf else .inf
  | .ninf, .num b => if b < 0 then .inf else .ninf
  | .inf, .inf => .nan
  | .inf, .ninf => .nan
  | .ninf, .inf => .nan
  | .ninf, .ninf => .nan

/-- IEEE absolute value. -/
def PF.abs : PF → PF
  | .num a => .num |a|
  | .inf => .inf
  | .ninf => .inf
  | .nan => .nan

/-- IEEE strict comparison: any comparison involving `nan` is false. -/
def PF.lt : PF → PF → Bool
  | .nan, _ => false
  | _, .nan => false
  | .num a, .num b => decide (a < b)
  | .num _, .inf => true
  | .inf, .num _ => false
  | .ninf, .num _ => true
  | .num _, .ninf => false
  | .ninf, .inf => true
  | .inf, .ninf => false
  | .inf, .inf => false
  | .ninf, .ninf => false

/-- IEEE non-strict comparison: any comparison involving `nan` is false. -/
def PF.le : PF → PF → Bool
  | .nan, _ => false
  | _, .nan => false
  | .num a, .num b => decide (a ≤ b)
  | .num _, .inf => true
  | .inf, .num _ => false
  | .ninf, .num _ => true
  | .num _, .ninf => false
  | .ninf, .inf => true
  | .inf, .ninf => false
  | .inf, .inf => true
  | .ninf, .ninf => true

/-- Comparison `a >= b` as evaluated by Python. -/
def PF.ge (a b : PF) : Bool := PF.le b a

/-- The Python builtin `max(a, b)`: returns `b` only when `b > a`, so
`max(0.0, nan) = 0.0`. -/
def pymax (a b : PF) : PF := if PF.lt a b then b else a

/-- Model of `pandas.Series.sum()` (skipna default): sum of the non-`nan` entries,
`0.0` when there are none. -/
def pandasSum (l : List PF) : PF :=
  (l.filter (fun v => v ≠ PF.nan)).foldl PF.add (PF.num 0)

/-- Model of `pandas.Series.mean()` (skipna default): mean of the non-`nan` entries,
`nan` when there are none. -/
def pandasMean (l : List PF) : PF :=
  let vs := l.filter (fun v => v ≠ PF.nan)
  if vs.length = 0 then PF.nan
  else PF.div (vs.foldl PF.add (PF.num 0)) (PF.num vs.length)

/-- Positional indexing, `series.iloc[i]` (`none` models the `IndexError`
Python raises when the index is out of bounds). -/
def pyIloc : List α → Nat → Option α
  | [], _ => none
  | a :: _, 0 => some a
  | _ :: l, n + 1 => pyIloc l n

/-- Last-row indexing, `series.iloc[-1]`. -/
def pyLast : List α → Option α
  | [] => none
  | [a] => some a
  | _ :: b :: l => pyLast (b :: l)

/-- One raw row of the hourly-history payload consumed by
`transformed_past_hour` (`core/recommender.py`).  Timestamps are modelled as
exact seconds-since-epoch rationals; the six value columns may be missing in
the payload, hence `PF` with `nan` for a missing cell. -/
structure RawRow where
  timestamp : ℚ
  buy : PF
  sell : PF
  buyVolume : PF
  sellVolume : PF
  buyMovingWeek : PF
  sellMovingWeek : PF
deriving DecidableEq, Repr

/-- One row of the derived per-item history produced by
`transformed_past_hour`. -/
structure DerivedRow where
  buy_order_price : PF
  sell_order_price : PF
  buy_order_volume : PF
  sell_order_volume : PF
  insta_buy_volume : PF
  insta_sell_volume : PF
  insta_buy_volume_week : PF
  insta_sell_volume_week : PF
  margin : PF
  timestamp : ℚ
deriving DecidableEq, Repr

/-- Forward-fill carry state for the six `fill_cols` of
`transformed_past_hour`. -/
structure FillState where
  buy : PF
  sell : PF
  buyVolume : PF
  sellVolume : PF
  buyMovingWeek : PF
  sellMovingWeek : PF

/-- One cell of `DataFrame.ffill()`: keep the current value unless it is
missing, in which case carry the previous one (a leading gap stays `nan`). -/
def ffillField (prev cur : PF) : PF := if cur = PF.nan then prev else cur

/-- The assignment `df[fill_cols] = df[fill_cols].ffill()` over the sorted rows. -/
def ffillGo : FillState → List RawRow → List RawRow
  | _, [] => []
  | st, r :: rest =>
    let r' : RawRow :=
      { timestamp := r.timestamp
        buy := ffillField st.buy r.buy
        sell := ffillField st.sell r.sell
        buyVolume := ffillField st.buyVolume r.buyVolume
        sellVolume := ffillField st.sellVolume r.sellVolume
        buyMovingWeek := ffillField st.buyMovingWeek r.buyMovingWeek
        sellMovingWeek := ffillField st.sellMovingWeek r.sellMovingWeek }
    r' :: ffillGo ⟨r'.buy, r'.sell, r'.buyVolume, r'.sellVolume,
                   r'.buyMovingWeek, r'.sellMovingWeek⟩ rest

/-- Forward fill with no carried value before the first row. -/
def ffillRows (rows : List RawRow) : List RawRow :=
  ffillGo ⟨PF.nan, PF.nan, PF.nan, PF.nan, PF.nan, PF.nan⟩ rows

/-- The column rename of `transformed_past_hour` (upstream buy/sell labels
are inverted relative to the trader), together with the margin column
`(sell_order_price - buy_order_price) * (1 - 0.01125)`.  The two interval
insta-volume columns are produced afterwards by the diff pass. -/
def renameRow (r : RawRow) : DerivedRow :=
  { buy_order_price := r.sell
    sell_order_price := r.buy
    buy_order_volume := r.sellVolume
    sell_order_volume := r.buyVolume
    insta_buy_volume := PF.nan
    insta_sell_volume := PF.nan
    insta_buy_volume_week := r.buyMovingWeek
    insta_sell_volume_week := r.sellMovingWeek
    margin := PF.mul (PF.sub r.buy r.sell) (PF.num (1 - 1125 / 100000))
    timestamp := r.timestamp }

/-- The `.diff().abs()` pass filling `insta_buy_volume` and
`insta_sell_volume` from the weekly cumulative columns; the first row has no
predecessor and keeps `nan`, exactly like `Series.diff()`. -/
def instaDiffGo : Option DerivedRow → List DerivedRow → List DerivedRow
  | _, [] => []
  | prev, r :: rest =>
    let r' : DerivedRow :=
      { r with
        insta_buy_volume :=
          match prev with
          | none => PF.nan
          | some p => PF.abs (PF.sub r.insta_buy_volume_week p.insta_buy_volume_week)
        insta_sell_volume :=
          match prev with
          | none => PF.nan
          | some p => PF.abs (PF.sub r.insta_sell_volume_week p.insta_sell_volume_week) }
    r' :: instaDiffGo (some r) rest

/-- Model of `transformed_past_hour` (`core/recommender.py`): sort by timestamp,
forward-fill the value columns, rename to trader-perspective names, add the
margin column, then derive interval insta volumes as absolute diffs of the
weekly cumulative columns.  (`sort_values` uses an unstable sort in pandas;
we model it with a stable insertion sort, which agrees on every history
whose timestamps are distinct.) -/
def transformed_past_hour (df : List RawRow) : List DerivedRow :=
  let sorted := List.insertionSort (fun a b => a.timestamp ≤ b.timestamp) df
  instaDiffGo none ((ffillRows sorted).map renameRow)

/-- One row of a processed order-book side: the unit price together with the
`out_bid_price` column added by `transformed_order_book` (`nan` on the first
row of the ascending sort, like `Series.diff()`). -/
structure OBRow where
  pricePerUnit : ℚ
  out_bid_price : PF
deriving DecidableEq, Repr

/-- Consecutive diffs along the ascending sort, each row paired with its
delta over the previous price. -/
def obDiffGo : ℚ → List ℚ → List OBRow
  | _, [] => []
  | prev, p :: ps => ⟨p, PF.num (p - prev)⟩ :: obDiffGo p ps

/-- Model of `transformed_order_book` (`core/recommender.py`): on a non-empty side,
sort by `pricePerUnit` ascending and add the `out_bid_price` diff column;
an empty side is returned unchanged (and never reaches `out_bid_factor`). -/
def transformed_order_book (prices : List ℚ) : List OBRow :=
  match List.insertionSort (fun a b : ℚ => a ≤ b) prices with
  | [] => []
  | p :: ps => ⟨p, PF.nan⟩ :: obDiffGo p ps

/-- Model of `Series.nlargest(k)` on an `out_bid_price` column: the `k` largest
non-missing entries.  The column only ever holds finite values and `nan`
(diffs of rational prices), so dropping non-`num` cells is exact. -/
def columnNLargest (k : Nat) (col : List PF) : List ℚ :=
  (List.insertionSort (fun a b : ℚ => b ≤ a)
    (col.filterMap fun v => match v with | PF.num q => some q | _ => none)).take k

/-- Mean of a list of exact values, `nan` on an empty list (as
`Series.mean()` gives after `nlargest` dropped every entry). -/
def ratListMean (l : List ℚ) : PF :=
  if l.length = 0 then PF.nan
  else PF.num (l.foldl (· + ·) 0 / l.length)

/-- Model of `out_bid_factor` (`core/recommender.py`): re-sort the processed side by
price in the requested direction, average the `top = max(1, int(len*0.2))`
largest `out_bid_price` entries and divide by the baseline out-bid of 0.1.
(`int(len * 0.2)` equals `len / 5` exactly for every realistic book size.) -/
def out_bid_factor (df : List OBRow) (ascending : Bool) : PF :=
  let sorted := if ascending
    then List.insertionSort (fun a b : OBRow => a.pricePerUnit ≤ b.pricePerUnit) df
    else List.insertionSort (fun a b : OBRow => b.pricePerUnit ≤ a.pricePerUnit) df
  let top := if df.length / 5 = 0 then 1 else df.length / 5
  let avg_out_bid := ratListMean (columnNLargest top (sorted.map fun r => r.out_bid_price))
  PF.div avg_out_bid (PF.num (1 / 10))

/-- Model of `Recommender.competitiveness`: average of the per-side out-bid factors,
an empty side contributing 0.  The buy book is re-sorted descending and the
sell book ascending inside `out_bid_factor`. -/
def competitiveness (buy_ob sell_ob : List OBRow) : PF :=
  let bo_ob_factor := if buy_ob.length ≠ 0 then out_bid_factor buy_ob false else PF.num 0
  let so_ob_factor := if sell_ob.length ≠ 0 then out_bid_factor sell_ob true else PF.num 0
  PF.div (PF.add bo_ob_factor so_ob_factor) (PF.num 2)

/-- The three fractional positions `[0.01, 0.5, 0.75]` of
`weighted_rate_of_change`, as row indices `int(n * pct)` (exact integer
truncation). -/
def wrocPositions (n : Nat) : List Nat := [n / 100, n / 2, n * 3 / 4]

/-- The recent mean `df[column].tail(recent_window).mean()` with the default window of 6. -/
def wrocRecent (df : List DerivedRow) (column : DerivedRow → PF) : PF :=
  pandasMean ((df.map column).drop (df.length - 6))

/-- The per-position rate loop of `weighted_rate_of_change`.  `iloc[pos]`
out of bounds models the `IndexError` Python raises there (only reachable
on an empty history). -/
def ratesGo (df : List DerivedRow) (column : DerivedRow → PF) (recent_value : PF) :
    List Nat → Option (List PF)
  | [] => some []
  | pos :: rest =>
    match pyIloc df pos, pyLast df with
    | some row, some lastRow =>
      let value_at_pos := column row
      let value_diff := PF.sub recent_value value_at_pos
      let minutes_diff : ℚ := (lastRow.timestamp - row.timestamp) / 60
      let rate := if PF.lt (PF.num 0) value_at_pos && decide (0 < minutes_diff)
        then PF.div value_diff (PF.mul value_at_pos (PF.num minutes_diff))
        else PF.num 0
      match ratesGo df column recent_value rest with
      | some rs => some (rate :: rs)
      | none => none
    | _, _ => none

/-- Model of `np.average(rates, weights)`: weighted sum over total weight. -/
def npAverage (rates : List PF) (weights : List ℚ) : PF :=
  PF.div ((List.zipWith (fun w r => PF.mul (PF.num w) r) weights rates).foldl PF.add (PF.num 0))
    (PF.num (weights.foldl (· + ·) 0))

/-- Model of `weighted_rate_of_change` (`core/recommender.py`) with its default
arguments: `none` models the exception Python raises (the `IndexError`
from `iloc[0]` on an empty history); otherwise the weighted average of the
three positional rates, or `nan` when every rate is zero. -/
def weighted_rate_of_change (df : List DerivedRow) (column : DerivedRow → PF) : Option PF :=
  match ratesGo df column (wrocRecent df column) (wrocPositions df.length) with
  | none => none
  | some rates =>
    if (rates.filter (fun r => r ≠ PF.num 0)).length = 0 then some PF.nan
    else some (npAverage rates [1/5, 3/10, 1/2])

/-- Model of `Recommender.minutes_per_flip`: expected minutes for one full flip,
the sum of the two average order-fill wait times. -/
def minutes_per_flip (df : List DerivedRow) : PF :=
  let fill_bo_hr := pandasSum (df.map fun r => r.insta_sell_volume)
  let fill_so_hr := pandasSum (df.map fun r => r.insta_buy_volume)
  let fill_bo_wait_mins := if fill_bo_hr ≠ PF.num 0 then PF.div (PF.num 60) fill_bo_hr else PF.inf
  let fill_so_wait_mins := if fill_so_hr ≠ PF.num 0 then PF.div (PF.num 60) fill_so_hr else PF.inf
  PF.add fill_bo_wait_mins fill_so_wait_mins

/-- Model of `Recommender.profit_per_hour`: recent margin times flips per hour. -/
def profit_per_hour (df : List DerivedRow) : PF :=
  let flip_wait_mins := minutes_per_flip df
  let num_flips_hr := PF.div (PF.num 60) flip_wait_mins
  let margin_recent := pandasMean ((df.map fun r => r.margin).drop (df.length - 6))
  PF.mul margin_recent num_flips_hr

/-- Model of `Recommender.profit_half_life`: infinite when the weighted margin rate
of change is non-negative, otherwise `max(0.0, -0.5 / rate)`; `none` models
the propagated exception of `weighted_rate_of_change`. -/
def profit_half_life (df : List DerivedRow) : Option PF :=
  match weighted_rate_of_change df (fun r => r.margin) with
  | none => none
  | some avg_roc_per_minute =>
    if PF.ge avg_roc_per_minute (PF.num 0) then some PF.inf
    else some (pymax (PF.num 0) (PF.div (PF.num (-(1 / 2))) avg_roc_per_minute))

/-- Model of `Recommender` (`core/recommender.py`): one scored item, holding the
derived history and the two processed order-book sides.  The memoized
scalar properties are modelled as the pure functions above applied to
`past_hour`. -/
structure Recommender where
  item_id : String
  past_hour : List DerivedRow
  buy_ob : List OBRow
  sell_ob : List OBRow
deriving DecidableEq, Repr

/-- Model of `Recommender.__init__`: transform the raw history and both raw order
books at construction time. -/
def Recommender.make (item_id : String) (past_hour : List RawRow)
    (buy_order_book sell_order_book : List ℚ) : Recommender :=
  { item_id := item_id
    past_hour := transformed_past_hour past_hour
    buy_ob := transformed_order_book buy_order_book
    sell_ob := transformed_order_book sell_order_book }

/-- Memoized `minutes_per_flip` property. -/
def Recommender.minutesPerFlip (r : Recommender) : PF := minutes_per_flip r.past_hour

/-- Memoized `profit_per_hour` property. -/
def Recommender.profitPerHour (r : Recommender) : PF := profit_per_hour r.past_hour

/-- Memoized `profit_half_life` property. -/
def Recommender.profitHalfLife (r : Recommender) : Option PF := profit_half_life r.past_hour

/-- Memoized `competitiveness` property. -/
def Recommender.competitivenessOf (r : Recommender) : PF := competitiveness r.buy_ob r.sell_ob

/-- The Python exception classes distinguished by the `try/except`
blocks of the repository. -/
inductive PyErr where
  | keyError : PyErr
  | indexError : PyErr
  | httpStatusError : Nat → PyErr
  | otherError : PyErr
deriving DecidableEq, Repr

/-- Outcome of a fallible Python call: a value or a raised exception. -/
inductive PyResult (α : Type) where
  | ok : α → PyResult α
  | exn : PyErr → PyResult α
deriving DecidableEq, Repr

/-- Whether the call returned normally. -/
def PyResult.isOk : PyResult α → Bool
  | .ok _ => true
  | .exn _ => false

/-- An upstream HTTP response as seen by `DataClient._get`: the status code
and the optional `retry-after` header, modelled as the integer Python parses
out of it. -/
structure HttpResponse where
  status : Nat
  retryAfter : Option Int
deriving DecidableEq, Repr

/-- Model of `httpx.Response.raise_for_status()`: raises `HTTPStatusError` carrying
the status code on any 4xx/5xx response. -/
def raise_for_status (res : HttpResponse) : PyResult HttpResponse :=
  if 400 ≤ res.status then .exn (PyErr.httpStatusError res.status) else .ok res

/-- Observable outcome of one `DataClient._get` call: the returned response
or raised error, the back-off duration slept (if any), and how many HTTP
requests went upstream. -/
structure GetOutcome where
  result : PyResult HttpResponse
  waited : Option Int
  requests : Nat
deriving DecidableEq, Repr

/-- Model of `DataClient._get` (`core/data_client.py`), as a function of the first
response and of the response the retry would receive: on a 429 first
response, compute `wait_time` as the maximum of the parsed retry-after header (default 5) and 5,
sleep that long, issue exactly one retry and `raise_for_status` it; any
other first response is `raise_for_status`-ed immediately with no retry. -/
def DataClient.get (first retry : HttpResponse) : GetOutcome :=
  if first.status = 429 then
    let retry_after : Int := first.retryAfter.getD 5
    let wait_time := max retry_after 5
    { result := raise_for_status retry, waited := some wait_time, requests := 2 }
  else
    { result := raise_for_status first, waited := none, requests := 1 }

/-- The per-item pair of raw order-book sides held by the order-book map
(`ItemOrderbookDict`), keyed by item identifier. -/
def Orderbooks : Type := List (String × (List ℚ × List ℚ))

instance : DecidableEq Orderbooks := by
  unfold Orderbooks
  infer_instance

/-- Model of `DataClient.get_recommender` (`core/data_client.py`): an identifier
absent from the order-book map is skipped; otherwise the history fetch
(whose outcome, including any raised `KeyError` for a payload missing the
required columns, any `HTTPStatusError` from `_get`, or any other
exception, is the `histFetch` argument) is awaited and a `Recommender` is
built.  Every exception branch is caught and mapped to `None`. -/
def DataClient.get_recommender (item_id : String) (orderbooks : Orderbooks)
    (histFetch : PyResult (List RawRow)) : Option Recommender :=
  match List.lookup item_id orderbooks with
  | none => none
  | some order_book =>
    match histFetch with
    | .ok past_hour => some (Recommender.make item_id past_hour order_book.1 order_book.2)
    | .exn _ => none

/-- Python `dict` assignment `m[k] = v` on an association list: replace the
value in place when the key is present, otherwise append the new pair. -/
def dictSet (m : List (String × α)) (k : String) (v : α) : List (String × α) :=
  if m.any (fun p => p.1 = k) then
    m.map fun p => if p.1 = k then (k, v) else p
  else m ++ [(k, v)]

/-- Model of `RecommenderCache.get` (`core/cache_manager.py`): return a cached entry
when present; otherwise build via `DataClient.get_recommender` and write
the cache only when construction succeeded.  Returns the looked-up value
together with the cache state after the call. -/
def RecommenderCache.get (cache : List (String × Recommender)) (item_id : String)
    (orderbooks : Orderbooks) (histFetch : PyResult (List RawRow)) :
    Option Recommender × List (String × Recommender) :=
  match List.lookup item_id cache with
  | some r => (some r, cache)
  | none =>
    match DataClient.get_recommender item_id orderbooks histFetch with
    | some recommender => (some recommender, dictSet cache item_id recommender)
    | none => (none, cache)

/-- Model of `OrderbookCache.get` (`core/cache_manager.py`): singleton cache under
the fixed key `"_"`; a hit returns the cached snapshot, a miss performs the
fetch — a raised fetch error propagates before any write happens. -/
def OrderbookCache.get (cache : List (String × Orderbooks))
    (fetch : PyResult Orderbooks) : PyResult Orderbooks × List (String × Orderbooks) :=
  match List.lookup "_" cache with
  | some v => (.ok v, cache)
  | none =>
    match fetch with
    | .ok orderbooks => (.ok orderbooks, dictSet cache "_" orderbooks)
    | .exn e => (.exn e, cache)

/-- Model of `GoodProductsCache.get` (`core/cache_manager.py`): same singleton
structure over the eligible-item identifier list. -/
def GoodProductsCache.get (cache : List (String × List String))
    (fetch : PyResult (List String)) : PyResult (List String) × List (String × List String) :=
  match List.lookup "_" cache with
  | some v => (.ok v, cache)
  | none =>
    match fetch with
    | .ok items => (.ok items, dictSet cache "_" items)
    | .exn e => (.exn e, cache)

/-- The observable phases of one `CacheManager.refresh` cycle driven by
`refresh_loop` (`api/app.py`). -/
inductive LoopState where
  | IDLE : LoopState
  | FETCH_ELIGIBLE : LoopState
  | FETCH_SNAPSHOT : LoopState
  | REFRESH_ITEMS : LoopState
  | SLEEP : LoopState
deriving DecidableEq, Repr

/-- Upstream outcomes feeding one refresh cycle: the eligible-items fetch
and the order-book snapshot fetch.  The per-item refresh phase cannot raise
(`DataClient.get_recommender` catches every exception and returns `None`),
so these two fetches are the only error sources of a cycle. -/
structure CycleInput where
  eligible : PyResult (List String)
  snapshot : PyResult Orderbooks
deriving DecidableEq

/-- The phase trace of one cycle of `refresh_loop`: enter IDLE, fetch the
eligible items, then the snapshot, then refresh every item; an uncaught
error aborts the cycle at its phase and the `except` branch sleeps. -/
def cycleTrace (c : CycleInput) : List LoopState :=
  LoopState.IDLE :: LoopState.FETCH_ELIGIBLE ::
    (match c.eligible with
     | .exn _ => [LoopState.SLEEP]
     | .ok _ =>
       LoopState.FETCH_SNAPSHOT ::
         (match c.snapshot with
          | .exn _ => [LoopState.SLEEP]
          | .ok _ => [LoopState.REFRESH_ITEMS]))

/-- Whether the cycle hit the `except` branch of `refresh_loop`. -/
def cycleFailed (c : CycleInput) : Bool :=
  !c.eligible.isOk || !c.snapshot.isOk

/-- The call `logger.critical` fires exactly on the `except` branch. -/
def cycleLoggedCritical (c : CycleInput) : Bool := cycleFailed c

/-- The backoff `asyncio.sleep(5)` fires exactly on the `except` branch. -/
def cycleSleepSeconds (c : CycleInput) : Option Nat :=
  if cycleFailed c then some 5 else none

/-- Model of `refresh_loop` (`api/app.py`) observed over any finite prefix of cycle
inputs: the infinite `while True` loop concatenates cycle traces and keeps
going whatever the outcome of each cycle was. -/
def refresh_loop : List CycleInput → List LoopState
  | [] => []
  | c :: rest => cycleTrace c ++ refresh_loop rest

/-- Consecutive-price deltas of a list, in order ("out-bid amounts" in the
words of the spec). -/
def consecDeltas : List ℚ → List ℚ
  | [] => []
  | [_] => []
  | a :: b :: rest => (b - a) :: consecDeltas (b :: rest)

/-- The per-side procedure of the claim, written from the words of the spec: sort the
side by price in the stated direction, take consecutive-price deltas, keep
the `max(1, ⌊n/5⌋)` largest, average them and divide by the baseline
out-bid unit 0.1. -/
def claimSideFactor (prices : List ℚ) (descending : Bool) : PF :=
  let sorted := if descending
    then List.insertionSort (fun a b : ℚ => b ≤ a) prices
    else List.insertionSort (fun a b : ℚ => a ≤ b) prices
  let deltas := consecDeltas sorted
  let k := if prices.length / 5 = 0 then 1 else prices.length / 5
  PF.div (ratListMean ((List.insertionSort (fun a b : ℚ => b ≤ a) deltas).take k))
    (PF.num (1 / 10))

/-- The competitiveness procedure of the claim, literally as stated: buy side sorted
descending, sell side ascending, deltas taken after that directional sort,
an empty side contributing factor 0, and the two factors averaged. -/
def claimCompetitiveness (buy sell : List ℚ) : PF :=
  let bo := if buy.length ≠ 0 then claimSideFactor buy true else PF.num 0
  let so := if sell.length ≠ 0 then claimSideFactor sell false else PF.num 0
  PF.div (PF.add bo so) (PF.num 2)

/-- The amended per-side description: the deltas are the consecutive-price
deltas of the ascending sort on *both* sides (they are computed once by
`transformed_order_book`; the later per-side re-sort direction does not
affect which deltas exist). -/
def amendedCompetitiveness (buy sell : List ℚ) : PF :=
  let bo := if buy.length ≠ 0 then claimSideFactor buy false else PF.num 0
  let so := if sell.length ≠ 0 then claimSideFactor sell false else PF.num 0
  PF.div (PF.add bo so) (PF.num 2)

/-- The state sequence C8 asserts for every refresh cycle. -/
def claimCycleStates : List LoopState :=
  [LoopState.IDLE, LoopState.FETCH_ELIGIBLE, LoopState.FETCH_SNAPSHOT,
   LoopState.REFRESH_ITEMS, LoopState.SLEEP]

/-- A refresh cycle whose two fetches both succeed. -/
def okCycle : CycleInput := { eligible := .ok [], snapshot := .ok ([] : Orderbooks) }

/-- A refresh cycle whose snapshot fetch raises an HTTP 500. -/
def failCycle : CycleInput :=
  { eligible := .ok ["A"], snapshot := .exn (PyErr.httpStatusError 500) }

/-- One row of the synthetic constant history: constant prices (hence a
constant positive margin), constant order volumes and constant weekly
cumulative volumes (hence zero weekly deltas), sampled once a minute. -/
def constRow (i : Nat) : RawRow :=
  { timestamp := (i : ℚ) * 60
    buy := PF.num 12
    sell := PF.num 10
    buyVolume := PF.num 3
    sellVolume := PF.num 4
    buyMovingWeek := PF.num 5000
    sellMovingWeek := PF.num 7000 }

/-- Ascending run of `n` constant rows starting at index `i`. -/
def constRows : Nat → Nat → List RawRow
  | _, 0 => []
  | i, n + 1 => constRow i :: constRows (i + 1) n

/-- The 60-row synthetic history of the end-to-end claim. -/
def hist60 : List RawRow := constRows 0 60

/-- The derived row produced from `constRow 0` alone. -/
def trow0 : DerivedRow :=
  { buy_order_price := PF.num 10
    sell_order_price := PF.num 12
    buy_order_volume := PF.num 4
    sell_order_volume := PF.num 3
    insta_buy_volume := PF.nan
    insta_sell_volume := PF.nan
    insta_buy_volume_week := PF.num 5000
    insta_sell_volume_week := PF.num 7000
    margin := PF.num (19775 / 10000)
    timestamp := 0 }

instance : IsTotal ℚ (fun a b : ℚ => b ≤ a) := ⟨fun a b => le_total b a⟩

instance : IsTrans ℚ (fun a b : ℚ => b ≤ a) := ⟨fun _ _ _ h1 h2 => le_trans h2 h1⟩

instance : IsAntisymm ℚ (fun a b : ℚ => b ≤ a) := ⟨fun _ _ h1 h2 => le_antisymm h2 h1⟩

theorem pyIloc_isSome {α : Type} {l : List α} {i : Nat} (h : i < l.length) :
    (pyIloc l i).isSome = true := by
  induction l generalizing i with
  | nil => simp at h
  | cons a l ih =>
    cases i with
    | zero => rfl
    | succ i => exact ih (by simpa using h)

theorem pyLast_isSome {α : Type} : ∀ {l : List α}, l ≠ [] → (pyLast l).isSome = true
  | [], h => absurd rfl h
  | [_], _ => rfl
  | _ :: b :: l, _ => pyLast_isSome (l := b :: l) (by simp)

theorem wrocPositions_lt {n : Nat} (h : 0 < n) : ∀ p ∈ wrocPositions n, p < n := by
  intro p hp
  simp only [wrocPositions, List.mem_cons, List.not_mem_nil, or_false] at hp
  rcases hp with rfl | rfl | rfl
  · exact Nat.div_lt_self h (by norm_num)
  · exact Nat.div_lt_self h (by norm_num)
  · rw [Nat.div_lt_iff_lt_mul (by norm_num : 0 < 4)]
    omega

theorem ratesGo_isSome (df : List DerivedRow) (column : DerivedRow → PF) (rv : PF) :
    ∀ ps : List Nat, (∀ p ∈ ps, p < df.length) → df ≠ [] →
    (ratesGo df column rv ps).isSome = true := by
  intro ps
  induction ps with
  | nil => intro _ _; rfl
  | cons p ps ih =>
    intro hp hne
    obtain ⟨row, hrow⟩ := Option.isSome_iff_exists.mp (pyIloc_isSome (hp p (by simp)))
    obtain ⟨lastRow, hlast⟩ := Option.isSome_iff_exists.mp (pyLast_isSome hne)
    obtain ⟨rs, hrs⟩ := Option.isSome_iff_exists.mp
      (ih (fun q hq => hp q (List.mem_cons_of_mem _ hq)) hne)
    simp [ratesGo, hrow, hlast, hrs]

theorem instaDiffGo_mem {row : DerivedRow} :
    ∀ (prev : Option DerivedRow) (l : List DerivedRow), row ∈ instaDiffGo prev l →
    ∃ r ∈ l, row.margin = r.margin ∧ row.buy_order_price = r.buy_order_price ∧
      row.sell_order_price = r.sell_order_price
  | _, [], h => absurd h (by simp [instaDiffGo])
  | prev, r :: rest, h => by
    simp only [instaDiffGo, List.mem_cons] at h
    rcases h with h | h
    · exact ⟨r, List.mem_cons_self r rest, by rw [h], by rw [h], by rw [h]⟩
    · obtain ⟨r', hr', hm⟩ := instaDiffGo_mem (some r) rest h
      exact ⟨r', List.mem_cons_of_mem r hr', hm⟩

theorem transformed_margin {h : List RawRow} {row : DerivedRow}
    (hm : row ∈ transformed_past_hour h) :
    row.margin = PF.mul (PF.sub row.sell_order_price row.buy_order_price)
      (PF.num (1 - 1125 / 100000)) := by
  obtain ⟨r, hr, h1, h2, h3⟩ := instaDiffGo_mem none _ hm
  obtain ⟨raw, _, rfl⟩ := List.mem_map.mp hr
  rw [h1, h2, h3]
  rfl

theorem obDiffGo_map_col : ∀ (prev : ℚ) (l : List ℚ),
    (obDiffGo prev l).map (fun r => r.out_bid_price) =
      (consecDeltas (prev :: l)).map PF.num
  | _, [] => rfl
  | prev, p :: ps => by
    simp only [obDiffGo, consecDeltas, List.map_cons, List.cons.injEq, true_and]
    exact obDiffGo_map_col p ps

theorem obDiffGo_length : ∀ (prev : ℚ) (l : List ℚ), (obDiffGo prev l).length = l.length
  | _, [] => rfl
  | prev, p :: ps => by simp [obDiffGo, obDiffGo_length p ps]

theorem transformed_order_book_length (ps : List ℚ) :
    (transformed_order_book ps).length = ps.length := by
  have hlen := List.length_insertionSort (fun a b : ℚ => a ≤ b) ps
  rcases hs : List.insertionSort (fun a b : ℚ => a ≤ b) ps with _ | ⟨p, rest⟩ <;>
    rw [hs] at hlen
  · simp only [transformed_order_book, hs]
    simpa using hlen
  · simp only [transformed_order_book, hs, List.length_cons, obDiffGo_length]
    simpa using hlen

theorem sortDesc_eq_of_perm {l1 l2 : List ℚ} (h : l1.Perm l2) :
    List.insertionSort (fun a b : ℚ => b ≤ a) l1 =
      List.insertionSort (fun a b : ℚ => b ≤ a) l2 :=
  List.eq_of_perm_of_sorted
    (((List.perm_insertionSort _ l1).trans h).trans (List.perm_insertionSort _ l2).symm)
    (List.sorted_insertionSort _ l1) (List.sorted_insertionSort _ l2)

theorem columnNLargest_perm {k : Nat} {c1 c2 : List PF} (h : c1.Perm c2) :
    columnNLargest k c1 = columnNLargest k c2 := by
  unfold columnNLargest
  rw [sortDesc_eq_of_perm (h.filterMap _)]

theorem filterMap_num_col (l : List ℚ) :
    List.filterMap (fun v => match v with | PF.num q => some q | _ => none)
      (PF.nan :: l.map PF.num) = l := by
  induction l with
  | nil => rfl
  | cons a l ih => simpa [List.filterMap_cons] using ih

/-- The re-sort inside `out_bid_factor` only permutes the precomputed
`out_bid_price` column, so the factor equals the spec-side ascending-delta
procedure regardless of the requested sort direction. -/
theorem out_bid_factor_eq_claimSide (ps : List ℚ) (hne : ps ≠ []) (asc : Bool) :
    out_bid_factor (transformed_order_book ps) asc = claimSideFactor ps false := by
  rcases hs : List.insertionSort (fun a b : ℚ => a ≤ b) ps with _ | ⟨p, rest⟩
  · have hp := List.perm_insertionSort (fun a b : ℚ => a ≤ b) ps
    rw [hs] at hp
    exact absurd hp.symm.eq_nil hne
  · have hcol : (transformed_order_book ps).map (fun r => r.out_bid_price) =
        PF.nan :: (consecDeltas (p :: rest)).map PF.num := by
      simp only [transformed_order_book, hs, List.map_cons, List.cons.injEq, true_and]
      exact obDiffGo_map_col p rest
    have htop := transformed_order_book_length ps
    cases asc <;>
    · simp only [out_bid_factor, claimSideFactor, Bool.false_eq_true, if_false, if_true, htop, hs]
      rw [columnNLargest_perm ((List.perm_insertionSort _ _).map _), hcol]
      simp only [columnNLargest, filterMap_num_col]

/-- C2: on a 429 first response the fetcher waits `max(retry-after hint, 5)`
(5 when the header is absent or below the minimum), retries exactly once and
surfaces a failing retry as an `HTTPStatusError` carrying the status code;
any non-429 error status on the first response raises immediately with no
retry and no wait. -/
theorem C2_rate_limit_retry (first retry : HttpResponse) :
    (first.status = 429 →
      (DataClient.get first retry).waited = some (max (first.retryAfter.getD 5) 5) ∧
      (∀ w, (DataClient.get first retry).waited = some w → 5 ≤ w) ∧
      (DataClient.get first retry).requests = 2 ∧
      (400 ≤ retry.status →
        (DataClient.get first retry).result = .exn (PyErr.httpStatusError retry.status))) ∧
    (first.status ≠ 429 →
      (DataClient.get first retry).requests = 1 ∧
      (DataClient.get first retry).waited = none ∧
      (400 ≤ first.status →
        (DataClient.get first retry).result = .exn (PyErr.httpStatusError first.status))) := by
  refine ⟨fun h429 => ?_, fun hne => ?_⟩
  · have hget : DataClient.get first retry =
        { result := raise_for_status retry,
          waited := some (max (first.retryAfter.getD 5) 5), requests := 2 } := by
      simp [DataClient.get, h429]
    refine ⟨by rw [hget], fun w hw => ?_, by rw [hget], fun herr => ?_⟩
    · rw [hget] at hw
      simp only [Option.some.injEq] at hw
      exact hw ▸ le_max_right _ 5
    · rw [hget]
      simp only [raise_for_status, if_pos herr]
  · have hget : DataClient.get first retry =
        { result := raise_for_status first, waited := none, requests := 1 } := by
      simp [DataClient.get, hne]
    refine ⟨by rw [hget], by rw [hget], fun herr => ?_⟩
    rw [hget]
    simp only [raise_for_status, if_pos herr]

/-- C2 witness: a 429 with `retry-after: 2` waits the minimum 5, retries
once, and the second 429 surfaces as an HTTP error with status 429. -/
theorem C2_witness :
    (DataClient.get ⟨429, some 2⟩ ⟨429, none⟩).waited = some 5 ∧
    (DataClient.get ⟨429, some 2⟩ ⟨429, none⟩).requests = 2 ∧
    (DataClient.get ⟨429, some 2⟩ ⟨429, none⟩).result = .exn (PyErr.httpStatusError 429) := by
  obtain ⟨h1, _⟩ := C2_rate_limit_retry ⟨429, some 2⟩ ⟨429, none⟩
  obtain ⟨hw, _, hr, hres⟩ := h1 rfl
  exact ⟨hw.trans (by decide), hr, hres (by decide)⟩

/-- C5: item construction never propagates an error — an identifier absent
from the order-book map, or any exception from the history fetch or the
transformation, yields `None` (skip, nothing cached); only a successful
construction is written into the item cache under its identifier. -/
theorem C5_item_construction (item_id : String) (orderbooks : Orderbooks)
    (histFetch : PyResult (List RawRow)) (cache : List (String × Recommender)) :
    (List.lookup item_id orderbooks = none →
      DataClient.get_recommender item_id orderbooks histFetch = none) ∧
    (∀ e, histFetch = .exn e →
      DataClient.get_recommender item_id orderbooks histFetch = none) ∧
    (∀ bs ss rows, List.lookup item_id orderbooks = some (bs, ss) → histFetch = .ok rows →
      DataClient.get_recommender item_id orderbooks histFetch =
        some (Recommender.make item_id rows bs ss)) ∧
    (List.lookup item_id cache = none →
      DataClient.get_recommender item_id orderbooks histFetch = none →
      RecommenderCache.get cache item_id orderbooks histFetch = (none, cache)) ∧
    (List.lookup item_id cache = none → ∀ r,
      DataClient.get_recommender item_id orderbooks histFetch = some r →
      RecommenderCache.get cache item_id orderbooks histFetch =
        (some r, dictSet cache item_id r)) := by
  refine ⟨fun habs => ?_, fun e he => ?_, fun bs ss rows hob hh => ?_,
    fun hmiss hnone => ?_, fun hmiss r hsome => ?_⟩
  · simp [DataClient.get_recommender, habs]
  · cases hlk : List.lookup item_id orderbooks <;>
      simp [DataClient.get_recommender, hlk, he]
  · simp [DataClient.get_recommender, hob, hh]
  · simp [RecommenderCache.get, hmiss, hnone]
  · simp [RecommenderCache.get, hmiss, hsome]

/-- C5 witness: a present identifier with a successful empty-history fetch
constructs and caches; the resulting cache carries exactly that entry. -/
theorem C5_witness :
    List.lookup "A" ([] : List (String × Recommender)) = none ∧
    DataClient.get_recommender "A" [("A", ([], []))] (.ok []) =
      some (Recommender.make "A" [] [] []) ∧
    RecommenderCache.get [] "A" [("A", ([], []))] (.ok []) =
      (some (Recommender.make "A" [] [] []),
        dictSet [] "A" (Recommender.make "A" [] [] [])) := by
  have h := C5_item_construction "A" [("A", ([], []))] (.ok []) []
  exact ⟨rfl, h.2.2.1 [] [] [] rfl rfl,
    h.2.2.2.2 rfl (Recommender.make "A" [] [] []) (h.2.2.1 [] [] [] rfl rfl)⟩

/-- C9: when the weighted rate of change of the margin is `nan` (all
contributing rates degenerate), `profit_half_life` returns 0.0 — `nan`
fails the non-negative test, `-0.5 / nan` is `nan`, and the Python
`max(0.0, nan)` keeps `0.0`. -/
theorem C9_nan_half_life (df : List DerivedRow)
    (h : weighted_rate_of_change df (fun r => r.margin) = some PF.nan) :
    profit_half_life df = some (PF.num 0) := by
  unfold profit_half_life
  rw [h]
  decide

/-- C9 witness: a one-row history has all rates degenerate, hence a `nan`
rate and a zero half life. -/
theorem C9_witness :
    weighted_rate_of_change (transformed_past_hour [constRow 0]) (fun r => r.margin) =
      some PF.nan ∧
    profit_half_life (transformed_past_hour [constRow 0]) = some (PF.num 0) :=
  ⟨by decide, C9_nan_half_life _ (by decide)⟩

/-- C10: each cache writes only on success — a failed fetch on a miss
leaves all three caches unchanged, and a successful miss-population writes
exactly the fetched value under the cache key. -/
theorem C10_conditional_writes (rc : List (String × Recommender))
    (oc : List (String × Orderbooks)) (gc : List (String × List String))
    (item_id : String) (orderbooks : Orderbooks) (histFetch : PyResult (List RawRow))
    (obFetch : PyResult Orderbooks) (gpFetch : PyResult (List String)) :
    (List.lookup item_id rc = none →
      DataClient.get_recommender item_id orderbooks histFetch = none →
      (RecommenderCache.get rc item_id orderbooks histFetch).2 = rc) ∧
    (List.lookup item_id rc = none → ∀ r,
      DataClient.get_recommender item_id orderbooks histFetch = some r →
      (RecommenderCache.get rc item_id orderbooks histFetch).2 = dictSet rc item_id r) ∧
    (∀ e, obFetch = .exn e → (OrderbookCache.get oc obFetch).2 = oc) ∧
    (List.lookup "_" oc = none → ∀ v, obFetch = .ok v →
      (OrderbookCache.get oc obFetch).2 = dictSet oc "_" v) ∧
    (∀ e, gpFetch = .exn e → (GoodProductsCache.get gc gpFetch).2 = gc) ∧
    (List.lookup "_" gc = none → ∀ v, gpFetch = .ok v →
      (GoodProductsCache.get gc gpFetch).2 = dictSet gc "_" v) := by
  refine ⟨fun hmiss hnone => ?_, fun hmiss r hsome => ?_, fun e he => ?_,
    fun hmiss v hv => ?_, fun e he => ?_, fun hmiss v hv => ?_⟩
  · simp [RecommenderCache.get, hmiss, hnone]
  · simp [RecommenderCache.get, hmiss, hsome]
  · cases hlk : List.lookup "_" oc <;> simp [OrderbookCache.get, hlk, he]
  · simp [OrderbookCache.get, hmiss, hv]
  · cases hlk : List.lookup "_" gc <;> simp [GoodProductsCache.get, hlk, he]
  · simp [GoodProductsCache.get, hmiss, hv]

/-- C10 witness: a failing order-book fetch on a miss leaves the cache
empty, and a successful eligible-items fetch writes the singleton key. -/
theorem C10_witness :
    (OrderbookCache.get [] (.exn PyErr.otherError)).2 = [] ∧
    (GoodProductsCache.get [] (.ok ["A"])).2 = dictSet [] "_" ["A"] := by
  have h := C10_conditional_writes [] [] [] "A" [] (.ok []) (.exn PyErr.otherError) (.ok ["A"])
  exact ⟨h.2.2.1 PyErr.otherError rfl, h.2.2.2.2.2 rfl ["A"] rfl⟩

/-- C8 counterexample: a fully successful refresh cycle never visits SLEEP
— `refresh_loop` only sleeps inside its `except` branch, so the claimed
per-cycle sequence ending in SLEEP is wrong for the success path. -/
theorem C8_counterexample : cycleTrace okCycle ≠ claimCycleStates := by decide

/-- C8 amended: a successful cycle runs IDLE → FETCH_ELIGIBLE →
FETCH_SNAPSHOT → REFRESH_ITEMS and returns to IDLE with no sleep; on any
uncaught error the cycle aborts at the failing phase, the error is logged
critical, the loop sleeps the fixed 5-unit backoff, and the loop continues
with the next cycle from IDLE regardless of the outcome. -/
theorem C8_amended (c : CycleInput) (rest : List CycleInput) :
    (cycleFailed c = false →
      cycleTrace c = [LoopState.IDLE, LoopState.FETCH_ELIGIBLE,
        LoopState.FETCH_SNAPSHOT, LoopState.REFRESH_ITEMS] ∧
      LoopState.SLEEP ∉ cycleTrace c) ∧
    (cycleFailed c = true →
      LoopState.SLEEP ∈ cycleTrace c ∧
      LoopState.REFRESH_ITEMS ∉ cycleTrace c ∧
      cycleLoggedCritical c = true ∧
      cycleSleepSeconds c = some 5) ∧
    refresh_loop (c :: rest) = cycleTrace c ++ refresh_loop rest ∧
    (cycleTrace c).head? = some LoopState.IDLE := by
  obtain ⟨el, sn⟩ := c
  cases el <;> cases sn <;>
    simp [cycleTrace, cycleFailed, cycleLoggedCritical, cycleSleepSeconds,
      PyResult.isOk, refresh_loop]

/-- C8 witness: a cycle whose snapshot fetch raises aborts before
REFRESH_ITEMS, logs critical, sleeps 5, and the loop goes on. -/
theorem C8_witness :
    LoopState.SLEEP ∈ cycleTrace failCycle ∧
    cycleSleepSeconds failCycle = some 5 ∧
    refresh_loop [failCycle] = cycleTrace failCycle ++ refresh_loop [] := by
  have h := C8_amended failCycle []
  exact ⟨(h.2.1 rfl).1, (h.2.1 rfl).2.2.2, h.2.2.1⟩

/-- C3 counterexample: on the buy side the deltas are computed once on the
ascending sort by `transformed_order_book`; re-deriving them after a
descending sort (as the claim words it) flips their sign and changes the
result.  With buy prices [1, 2, 4] and an empty sell side the code yields
competitiveness 10, while the procedure of the claim yields -5. -/
theorem C3_counterexample :
    competitiveness (transformed_order_book [1, 2, 4]) (transformed_order_book []) ≠
      claimCompetitiveness [1, 2, 4] [] := by decide

/-- C3 amended: competitiveness averages the two per-side factors (an empty
side contributing 0), where the factor of each side is the mean of the
`max(1, ⌊n/5⌋)` largest consecutive-price deltas of the *ascending* price
sort divided by the 0.1 baseline; the per-side re-sort direction inside
`out_bid_factor` (buy descending, sell ascending) does not affect the
result because the deltas were computed before it. -/
theorem C3_amended (buy sell : List ℚ) :
    competitiveness (transformed_order_book buy) (transformed_order_book sell) =
      amendedCompetitiveness buy sell := by
  unfold competitiveness amendedCompetitiveness
  by_cases hb : buy = [] <;> by_cases hs : sell = []
  · subst hb hs
    rfl
  · subst hb
    simp only [transformed_order_book_length, List.length_nil, ne_eq, not_true_eq_false,
      if_false, if_neg (List.length_eq_zero.not.mpr (by simpa using hs)),
      out_bid_factor_eq_claimSide sell hs true]
  · subst hs
    simp only [transformed_order_book_length, List.length_nil, ne_eq, not_true_eq_false,
      if_false, if_neg (List.length_eq_zero.not.mpr (by simpa using hb)),
      out_bid_factor_eq_claimSide buy hb false]
  · simp only [transformed_order_book_length, ne_eq,
      if_neg (List.length_eq_zero.not.mpr (by simpa using hb)),
      if_neg (List.length_eq_zero.not.mpr (by simpa using hs)),
      out_bid_factor_eq_claimSide buy hb false, out_bid_factor_eq_claimSide sell hs true]

/-- C6: minutes_per_flip is the sum of the two wait times, each 60 divided
by the corresponding interval insta-volume sum over the full window
(infinite when that sum is zero); in particular it is infinite when both
sums are zero. -/
theorem C6_minutes_per_flip (h : List RawRow) :
    (minutes_per_flip (transformed_past_hour h) =
      PF.add
        (if pandasSum ((transformed_past_hour h).map fun r => r.insta_sell_volume) = PF.num 0
          then PF.inf
          else PF.div (PF.num 60)
            (pandasSum ((transformed_past_hour h).map fun r => r.insta_sell_volume)))
        (if pandasSum ((transformed_past_hour h).map fun r => r.insta_buy_volume) = PF.num 0
          then PF.inf
          else PF.div (PF.num 60)
            (pandasSum ((transformed_past_hour h).map fun r => r.insta_buy_volume)))) ∧
    (pandasSum ((transformed_past_hour h).map fun r => r.insta_sell_volume) = PF.num 0 →
      pandasSum ((transformed_past_hour h).map fun r => r.insta_buy_volume) = PF.num 0 →
      minutes_per_flip (transformed_past_hour h) = PF.inf) := by
  constructor
  · unfold minutes_per_flip
    simp only [ite_not]
  · intro h1 h2
    unfold minutes_per_flip
    rw [h1, h2]
    decide

/-- C6 witness: a two-row constant-week history has both insta-volume sums
zero and an infinite minutes_per_flip. -/
theorem C6_witness :
    pandasSum ((transformed_past_hour (constRows 0 2)).map fun r => r.insta_sell_volume) =
      PF.num 0 ∧
    pandasSum ((transformed_past_hour (constRows 0 2)).map fun r => r.insta_buy_volume) =
      PF.num 0 ∧
    minutes_per_flip (transformed_past_hour (constRows 0 2)) = PF.inf := by
  have h := C6_minutes_per_flip (constRows 0 2)
  exact ⟨by decide, by decide, h.2 (by decide) (by decide)⟩

/-- C7: the margin of every derived row is
(sell_order_price - buy_order_price) * (1 - 0.01125) over the post-rename
columns, and a row with buy_order_price 10 and sell_order_price 12 has
margin exactly 1.9775. -/
theorem C7_margin_formula (h : List RawRow) (row : DerivedRow)
    (hmem : row ∈ transformed_past_hour h) :
    row.margin = PF.mul (PF.sub row.sell_order_price row.buy_order_price)
      (PF.num (1 - 1125 / 100000)) ∧
    (row.buy_order_price = PF.num 10 → row.sell_order_price = PF.num 12 →
      row.margin = PF.num (19775 / 10000)) := by
  have h1 := transformed_margin hmem
  refine ⟨h1, fun hb hs => ?_⟩
  rw [h1, hb, hs]
  decide

/-- C7 witness: the single constant raw row (buy 12 / sell 10 upstream)
derives to buy_order_price 10, sell_order_price 12 and margin 1.9775. -/
theorem C7_witness :
    trow0 ∈ transformed_past_hour [constRow 0] ∧
    trow0.buy_order_price = PF.num 10 ∧
    trow0.sell_order_price = PF.num 12 ∧
    trow0.margin = PF.num (19775 / 10000) := by
  have hm : trow0 ∈ transformed_past_hour [constRow 0] := by decide
  exact ⟨hm, by decide, by decide,
    (C7_margin_formula [constRow 0] trow0 hm).2 (by decide) (by decide)⟩

/-- C4 counterexample: on an empty history `weighted_rate_of_change`
raises (`iloc[0]` IndexError) instead of returning not-a-number. -/
theorem C4_counterexample :
    weighted_rate_of_change ([] : List DerivedRow) (fun r => r.margin) = none := by decide

/-- C4 amended: on every *non-empty* history `weighted_rate_of_change`
returns without raising; it returns not-a-number when the history has fewer
than 2 rows or when every contributing rate is zero/degenerate.  On an
empty history it raises an IndexError from positional indexing. -/
theorem C4_amended (df : List DerivedRow) (column : DerivedRow → PF) (hne : df ≠ []) :
    (weighted_rate_of_change df column).isSome = true ∧
    (df.length < 2 → weighted_rate_of_change df column = some PF.nan) ∧
    (∀ rates, ratesGo df column (wrocRecent df column) (wrocPositions df.length) = some rates →
      (rates.filter fun r => r ≠ PF.num 0) = [] →
      weighted_rate_of_change df column = some PF.nan) := by
  have hpos : 0 < df.length := List.length_pos.mpr hne
  refine ⟨?_, fun hlt => ?_, fun rates hr hf => ?_⟩
  · obtain ⟨rs, hrs⟩ := Option.isSome_iff_exists.mp
      (ratesGo_isSome df column (wrocRecent df column) (wrocPositions df.length)
        (wrocPositions_lt hpos) hne)
    have heq : weighted_rate_of_change df column =
        if (rs.filter fun r => r ≠ PF.num 0).length = 0 then some PF.nan
        else some (npAverage rs [1 / 5, 3 / 10, 1 / 2]) := by
      unfold weighted_rate_of_change
      rw [hrs]
    rw [heq]
    split_ifs <;> rfl
  · obtain ⟨r, rest, rfl⟩ : ∃ r rest, df = r :: rest := by
      cases df with
      | nil => exact absurd rfl hne
      | cons a l => exact ⟨a, l, rfl⟩
    have hrest : rest = [] := by
      cases rest with
      | nil => rfl
      | cons b l => simp at hlt; omega
    subst hrest
    simp [weighted_rate_of_change, wrocPositions, ratesGo, pyIloc, pyLast, sub_self, zero_div]
  · have heq : weighted_rate_of_change df column =
        if (rates.filter fun r => r ≠ PF.num 0).length = 0 then some PF.nan
        else some (npAverage rates [1 / 5, 3 / 10, 1 / 2]) := by
      unfold weighted_rate_of_change
      rw [hr]
    rw [heq, hf]
    rfl

/-- C4 witness: the one-row derived history is non-empty, does not raise,
and returns not-a-number (fewer than 2 rows). -/
theorem C4_witness :
    transformed_past_hour [constRow 0] ≠ [] ∧
    (weighted_rate_of_change (transformed_past_hour [constRow 0])
      (fun r => r.margin)).isSome = true ∧
    weighted_rate_of_change (transformed_past_hour [constRow 0]) (fun r => r.margin) =
      some PF.nan := by
  have hne : transformed_past_hour [constRow 0] ≠ [] := by decide
  have h := C4_amended (transformed_past_hour [constRow 0]) (fun r => r.margin) hne
  exact ⟨hne, h.1, h.2.1 (by decide)⟩

set_option maxRecDepth 10000 in
/-- C1 counterexample: the 60-row constant history (constant margin 1.9775,
zero weekly-volume deltas) makes every rate degenerate, so the weighted
rate of change is not-a-number and `profit_half_life` is 0.0, not infinite
as the non-negative branch of the claim asserts. -/
theorem C1_counterexample :
    (((transformed_past_hour hist60).map fun r => r.margin).all
      (fun m => m = PF.num (19775 / 10000)) = true ∧
      pandasSum ((transformed_past_hour hist60).map fun r => r.insta_buy_volume) = PF.num 0 ∧
      pandasSum ((transformed_past_hour hist60).map fun r => r.insta_sell_volume) = PF.num 0) ∧
    profit_half_life (transformed_past_hour hist60) ≠ some PF.inf := by decide

set_option maxRecDepth 10000 in
/-- C1 amended: for the 60-row constant history the engine computes
minutes_per_flip = infinite and profit_per_hour = 0 (60/infinite = 0), but
profit_half_life = 0.0: the all-degenerate rates make the weighted rate of
change not-a-number, which fails the non-negative test, and
`max(0.0, -0.5/nan)` evaluates to 0.0. -/
theorem C1_amended :
    (Recommender.make "SYNTH" hist60 [] []).minutesPerFlip = PF.inf ∧
    (Recommender.make "SYNTH" hist60 [] []).profitPerHour = PF.num 0 ∧
    (Recommender.make "SYNTH" hist60 [] []).profitHalfLife = some (PF.num 0) := by decide
